import Mathlib

/-!
Verification of the `OpenskSyscall` flash syscall driver
(`src/h1_syscalls/src/opensk_syscall.rs`).

The driver is embedded shallowly as a pure state-transition system:

* `DriverState` holds the `OptionalCell<AppId>` pending-operation marker
  (`app`), the grant store of per-app records (`grant`, an association list
  from app identifier to `AppData`), and the static scratch word buffer
  `WRITE_BUFFER` (`writeBuffer`, a list of machine words).
* The external flash capability is a parameter `FlashDevice` supplying the
  immediate return codes of `Flash::write` and `Flash::erase`; the calls the
  driver makes to the device, and the callbacks it schedules, are recorded in
  an `Event` trace.
* Kernel `expect`/panic paths are modelled by `Option`: a result of `none`
  means the corresponding Rust code halts the system.

Machine words are `u32`; bytes are `u8`. Both are modelled as `Nat` with the
reductions modulo 256 made explicit where `u32::from_ne_bytes` reads bytes.
The native byte order of the target is little-endian.
-/

namespace Opensk

/-- Constant `WORD_SIZE = size_of::<u32>()`. -/
def WORD_SIZE : Nat := 4

/-- Constant `PAGE_SIZE` from the source. -/
def PAGE_SIZE : Nat := 2048

/-- Constant `MAX_WRITE_COUNT` from the source. -/
def MAX_WRITE_COUNT : Nat := 2

/-- Constant `MAX_ERASE_COUNT` from the source. -/
def MAX_ERASE_COUNT : Nat := 10000

/-- Constant `MAX_WRITE_LENGTH` from the source (in words). -/
def MAX_WRITE_LENGTH : Nat := 32

/-- The subset of `kernel::ReturnCode` used by the driver. -/
inductive ReturnCode where
  | SUCCESS
  | SuccessWithValue (value : Nat)
  | EINVAL
  | EBUSY
  | ENOSUPPORT
deriving DecidableEq, Repr

/-- Per-app grant record: `AppData { callback, slice }`. A callback handle is
an abstract identifier; the allowed slice is its byte content. -/
structure AppData where
  callback : Option Nat
  slice : Option (List Nat)
deriving DecidableEq, Repr

/-- Immediate return codes of the external flash capability: `Flash::write`
returns `(code, buffer)` (we keep only the code, the buffer hand-back carries
no data), `Flash::erase` returns a code. -/
structure FlashDevice where
  writeCode : Nat → List Nat → ReturnCode
  eraseCode : Nat → ReturnCode

/-- Observable actions of one driver call: calls into the flash device and
scheduled client callbacks (`callback.schedule(status.into(), 0, 0)`; the
status is kept as a `ReturnCode`, the two remaining arguments literally). -/
inductive Event where
  | flashWrite (wordAddr : Nat) (data : List Nat)
  | flashErase (wordAddr : Nat)
  | callbackSchedule (cb : Nat) (status : ReturnCode) (a b : Nat)
deriving DecidableEq, Repr

/-- Mutable state of `OpenskSyscall`: the `app` optional cell, the grant
store, and the static `WRITE_BUFFER`. -/
structure DriverState where
  app : Option Nat
  grant : List (Nat × AppData)
  writeBuffer : List Nat
deriving DecidableEq, Repr

/-- Look the record of an app up in the grant store (`Grant::enter` succeeds
exactly when the app is still alive, i.e. the record is present). -/
def grantLookup : List (Nat × AppData) → Nat → Option AppData
  | [], _ => none
  | (k, v) :: rest, a => if k = a then some v else grantLookup rest a

/-- Replace the record of an app in the grant store (mutation performed inside a
`Grant::enter` closure). -/
def grantUpdate : List (Nat × AppData) → Nat → AppData → List (Nat × AppData)
  | [], _, _ => []
  | (k, v) :: rest, a, d =>
    if k = a then (k, d) :: rest else (k, v) :: grantUpdate rest a d

/-- Conversion `u32::from_ne_bytes` on a 4-byte chunk; the target is little-endian. The
catch-all branch models the `try_from(..).unwrap()` which, as the source
comments, cannot fail because the slice length is word-aligned. -/
def fromNeBytes : List Nat → Nat
  | [b0, b1, b2, b3] =>
    b0 % 256 + 256 * (b1 % 256) + 65536 * (b2 % 256) + 16777216 * (b3 % 256)
  | _ => 0

/-- The marshalling loop of `write_slice`:
`for (dst, src) in data.iter_mut().zip(slice.chunks(WORD_SIZE))` with
`data.len = n`. Word `i` is `from_ne_bytes` of byte group `i`. -/
def marshalWords : Nat → List Nat → List Nat
  | 0, _ => []
  | n + 1, bs => fromNeBytes (bs.take WORD_SIZE) :: marshalWords n (bs.drop WORD_SIZE)

/-- The words written into the scratch buffer for a byte slice: the zip runs
for `slice.len() / WORD_SIZE` iterations. -/
def marshal (slice : List Nat) : List Nat :=
  marshalWords (slice.length / WORD_SIZE) slice

/-- Method `OpenskSyscall::start`: compare-and-set on the `app` optional cell.
Returns `false` and leaves the cell alone when it is occupied, otherwise
fills it and returns `true`. (The `assert!` on `replace` in the source cannot
fire after the `is_some` early return.) -/
def start (st : DriverState) (a : Nat) : Bool × DriverState :=
  match st.app with
  | some _ => (false, st)
  | none => (true, { st with app := some a })

/-- Method `OpenskSyscall::write_slice`: validate alignment/length, try to start,
marshal the bytes into the prefix of `WRITE_BUFFER`, and issue the device
write at word address `ptr / WORD_SIZE`, returning its immediate code. -/
def writeSlice (dev : FlashDevice) (st : DriverState) (a ptr : Nat)
    (slice : List Nat) : ReturnCode × DriverState × List Event :=
  if ptr % WORD_SIZE ≠ 0 ∨ slice.length % WORD_SIZE ≠ 0 ∨
      slice.length / WORD_SIZE > MAX_WRITE_LENGTH then
    (ReturnCode.EINVAL, st, [])
  else
    match start st a with
    | (false, st1) => (ReturnCode.EBUSY, st1, [])
    | (true, st1) =>
      (dev.writeCode (ptr / WORD_SIZE) (marshal slice),
        { st1 with writeBuffer := marshal slice ++ st1.writeBuffer.drop (slice.length / WORD_SIZE) },
        [Event.flashWrite (ptr / WORD_SIZE) (marshal slice)])

/-- Method `OpenskSyscall::erase_page`: validate page alignment, try to start, and
issue the device erase at word address `ptr / WORD_SIZE`. -/
def erasePage (dev : FlashDevice) (st : DriverState) (a ptr : Nat) :
    ReturnCode × DriverState × List Event :=
  if ptr % PAGE_SIZE ≠ 0 then
    (ReturnCode.EINVAL, st, [])
  else
    match start st a with
    | (false, st1) => (ReturnCode.EBUSY, st1, [])
    | (true, st1) => (dev.eraseCode (ptr / WORD_SIZE), st1, [Event.flashErase (ptr / WORD_SIZE)])

/-- Method `OpenskSyscall::done`: take the pending app (`expect`s one is present,
else the system halts, modelled by `none`), enter its grant (`expect`s the
record is live, else halt), take the callback and schedule it when present.
-/
def done (st : DriverState) (status : ReturnCode) :
    Option (DriverState × List Event) :=
  match st.app with
  | none => none
  | some a =>
    match grantLookup st.grant a with
    | none => none
    | some d =>
      match d.callback with
      | some cb =>
        some ({ st with app := none, grant := grantUpdate st.grant a { d with callback := none } },
          [Event.callbackSchedule cb status 0 0])
      | none =>
        some ({ st with app := none, grant := grantUpdate st.grant a { d with callback := none } }, [])

/-- Method `Driver::command`: dispatch on `(cmd, arg)`. Command 2 enters the grant of the
calling app (halting when the app died), takes the allowed slice — clearing
the slice field of the record before any validation — and delegates to `write_slice`;
command 3 delegates to `erase_page`. -/
def command (dev : FlashDevice) (st : DriverState) (cmd arg a : Nat) :
    Option (ReturnCode × DriverState × List Event) :=
  match cmd, arg with
  | 0, _ => some (ReturnCode.SUCCESS, st, [])
  | 1, 0 => some (ReturnCode.SuccessWithValue WORD_SIZE, st, [])
  | 1, 1 => some (ReturnCode.SuccessWithValue PAGE_SIZE, st, [])
  | 1, 2 => some (ReturnCode.SuccessWithValue MAX_WRITE_COUNT, st, [])
  | 1, 3 => some (ReturnCode.SuccessWithValue MAX_ERASE_COUNT, st, [])
  | 1, 4 => some (ReturnCode.SuccessWithValue (MAX_WRITE_LENGTH * WORD_SIZE), st, [])
  | 1, _ => some (ReturnCode.EINVAL, st, [])
  | 2, ptr =>
    match grantLookup st.grant a with
    | none => none
    | some d =>
      match d.slice with
      | none => some (ReturnCode.EINVAL, st, [])
      | some sl =>
        some (writeSlice dev { st with grant := grantUpdate st.grant a { d with slice := none } } a ptr sl)
  | 3, ptr => some (erasePage dev st a ptr)
  | _, _ => some (ReturnCode.ENOSUPPORT, st, [])

/-- Method `Driver::allow`: sub-command 0 stores the slice into the record of the app
(halting when the app died); anything else is unsupported. -/
def allow (st : DriverState) (a cmd : Nat) (slice : Option (List Nat)) :
    Option (ReturnCode × DriverState) :=
  match cmd with
  | 0 =>
    match grantLookup st.grant a with
    | none => none
    | some d => some (ReturnCode.SUCCESS, { st with grant := grantUpdate st.grant a { d with slice := slice } })
  | _ => some (ReturnCode.ENOSUPPORT, st)

/-- Method `Driver::subscribe`: sub-command 0 stores the callback into the record of
the app (halting when the app died); anything else is unsupported. -/
def subscribe (st : DriverState) (cmd : Nat) (callback : Option Nat) (a : Nat) :
    Option (ReturnCode × DriverState) :=
  match cmd with
  | 0 =>
    match grantLookup st.grant a with
    | none => none
    | some d => some (ReturnCode.SUCCESS, { st with grant := grantUpdate st.grant a { d with callback := callback } })
  | _ => some (ReturnCode.ENOSUPPORT, st)

/-- Method `Client::erase_done`: forwards the status to `done`. -/
def eraseDone (st : DriverState) (status : ReturnCode) :
    Option (DriverState × List Event) :=
  done st status

/-- Method `Client::write_done`: hands the buffer back (no data) and forwards the
status to `done`. -/
def writeDone (st : DriverState) (status : ReturnCode) :
    Option (DriverState × List Event) :=
  done st status

/-! ### Sample device and states used by the concrete witnesses -/

/-- A device accepting every request with an immediate `SUCCESS`. -/
def trivialDev : FlashDevice :=
  { writeCode := fun _ _ => ReturnCode.SUCCESS, eraseCode := fun _ => ReturnCode.SUCCESS }

/-- A sample 8-byte slice. -/
def sampleSlice : List Nat := [1, 2, 3, 4, 5, 6, 7, 8]

/-- A sample record for app 7: callback 3 subscribed, an 8-byte slice allowed. -/
def sampleData : AppData := { callback := some 3, slice := some sampleSlice }

/-- Grant store holding only the record of app 7. -/
def sampleGrant : List (Nat × AppData) := [(7, sampleData)]

/-- An idle driver state. -/
def stIdle : DriverState :=
  { app := none, grant := sampleGrant, writeBuffer := List.replicate 32 0 }

/-- A driver state with an operation of app 7 pending. -/
def stPending : DriverState :=
  { app := some 7, grant := sampleGrant, writeBuffer := List.replicate 32 0 }

/-- A driver state whose pending operation is owned by app 9, whose record is
gone from the grant store. -/
def stGhost : DriverState :=
  { app := some 9, grant := sampleGrant, writeBuffer := List.replicate 32 0 }

/-- The state after app 7 writes `sampleSlice` at byte offset 4 on `stIdle`:
the slice is consumed, the marker owned, the two marshalled words stored. -/
def stAfterWrite : DriverState :=
  { app := some 7
    grant := [(7, { callback := some 3, slice := none })]
    writeBuffer := marshal sampleSlice ++ (List.replicate 32 0).drop 2 }

/-- The validation condition of a write request, as the claim states it: no
buffer registered, byte offset not word-aligned, buffer length not a whole
number of words, or word count over `MAX_WRITE_LENGTH`. -/
def writeInvalidArgs (ptr : Nat) (slice : Option (List Nat)) : Bool :=
  match slice with
  | none => true
  | some sl =>
    decide (ptr % WORD_SIZE ≠ 0) || decide (sl.length % WORD_SIZE ≠ 0) ||
      decide (sl.length / WORD_SIZE > MAX_WRITE_LENGTH)

/-! ### Helper lemmas -/

theorem start_idle (st : DriverState) (a : Nat) (h : st.app = none) :
    start st a = (true, { st with app := some a }) := by
  unfold start; rw [h]

theorem start_pending (st : DriverState) (a b : Nat) (h : st.app = some b) :
    start st a = (false, st) := by
  unfold start; rw [h]

theorem grantLookup_update_self (g : List (Nat × AppData)) (a : Nat) (d d1 : AppData)
    (h : grantLookup g a = some d) :
    grantLookup (grantUpdate g a d1) a = some d1 := by
  induction g with
  | nil => simp [grantLookup] at h
  | cons kv rest ih =>
    obtain ⟨k, v⟩ := kv
    by_cases hk : k = a
    · subst hk; simp [grantLookup, grantUpdate]
    · simp only [grantLookup, grantUpdate, if_neg hk] at h ⊢
      exact ih h

theorem command_erase_eq (dev : FlashDevice) (st : DriverState) (ptr a : Nat) :
    command dev st 3 ptr a = some (erasePage dev st a ptr) := rfl

theorem command_write_eq (dev : FlashDevice) (st : DriverState) (ptr a : Nat) (d : AppData)
    (hrec : grantLookup st.grant a = some d) :
    command dev st 2 ptr a =
      (match d.slice with
        | none => some (ReturnCode.EINVAL, st, [])
        | some sl =>
          some (writeSlice dev
            { st with grant := grantUpdate st.grant a { d with slice := none } } a ptr sl)) := by
  show (match grantLookup st.grant a with
    | none => none
    | some d =>
      match d.slice with
      | none => some (ReturnCode.EINVAL, st, [])
      | some sl =>
        some (writeSlice dev
          { st with grant := grantUpdate st.grant a { d with slice := none } } a ptr sl)) = _
  rw [hrec]

theorem command_write_unfold (dev : FlashDevice) (st : DriverState) (ptr a : Nat) :
    command dev st 2 ptr a =
      (match grantLookup st.grant a with
        | none => none
        | some d =>
          match d.slice with
          | none => some (ReturnCode.EINVAL, st, [])
          | some sl =>
            some (writeSlice dev
              { st with grant := grantUpdate st.grant a { d with slice := none } } a ptr sl)) := rfl

theorem start_cases (st : DriverState) (a : Nat) :
    (st.app = none ∧ start st a = (true, { st with app := some a })) ∨
    (∃ b, st.app = some b ∧ start st a = (false, st)) := by
  cases h : st.app with
  | none => exact Or.inl ⟨rfl, start_idle st a h⟩
  | some b => exact Or.inr ⟨b, rfl, start_pending st a b h⟩

theorem writeSlice_invalid (dev : FlashDevice) (st : DriverState) (a ptr : Nat)
    (slice : List Nat)
    (h : ptr % WORD_SIZE ≠ 0 ∨ slice.length % WORD_SIZE ≠ 0 ∨
      slice.length / WORD_SIZE > MAX_WRITE_LENGTH) :
    writeSlice dev st a ptr slice = (ReturnCode.EINVAL, st, []) := by
  unfold writeSlice; rw [if_pos h]

theorem writeSlice_busy (dev : FlashDevice) (st : DriverState) (a b ptr : Nat)
    (slice : List Nat) (hb : st.app = some b)
    (h1 : ptr % WORD_SIZE = 0) (h2 : slice.length % WORD_SIZE = 0)
    (h3 : slice.length / WORD_SIZE ≤ MAX_WRITE_LENGTH) :
    writeSlice dev st a ptr slice = (ReturnCode.EBUSY, st, []) := by
  unfold writeSlice
  rw [if_neg (by push_neg; exact ⟨h1, h2, h3⟩), start_pending st a b hb]

theorem writeSlice_go (dev : FlashDevice) (st : DriverState) (a ptr : Nat)
    (slice : List Nat) (hidle : st.app = none)
    (h1 : ptr % WORD_SIZE = 0) (h2 : slice.length % WORD_SIZE = 0)
    (h3 : slice.length / WORD_SIZE ≤ MAX_WRITE_LENGTH) :
    writeSlice dev st a ptr slice =
      (dev.writeCode (ptr / WORD_SIZE) (marshal slice),
        { st with
          app := some a
          writeBuffer := marshal slice ++ st.writeBuffer.drop (slice.length / WORD_SIZE) },
        [Event.flashWrite (ptr / WORD_SIZE) (marshal slice)]) := by
  unfold writeSlice
  rw [if_neg (by push_neg; exact ⟨h1, h2, h3⟩), start_idle st a hidle]

theorem erasePage_invalid (dev : FlashDevice) (st : DriverState) (a ptr : Nat)
    (h : ptr % PAGE_SIZE ≠ 0) :
    erasePage dev st a ptr = (ReturnCode.EINVAL, st, []) := by
  unfold erasePage; rw [if_pos h]

theorem erasePage_busy (dev : FlashDevice) (st : DriverState) (a b ptr : Nat)
    (hb : st.app = some b) (h : ptr % PAGE_SIZE = 0) :
    erasePage dev st a ptr = (ReturnCode.EBUSY, st, []) := by
  unfold erasePage; rw [if_neg (by omega), start_pending st a b hb]

theorem erasePage_go (dev : FlashDevice) (st : DriverState) (a ptr : Nat)
    (hidle : st.app = none) (h : ptr % PAGE_SIZE = 0) :
    erasePage dev st a ptr =
      (dev.eraseCode (ptr / WORD_SIZE), { st with app := some a },
        [Event.flashErase (ptr / WORD_SIZE)]) := by
  unfold erasePage; rw [if_neg (by omega), start_idle st a hidle]

theorem writeSlice_grant (dev : FlashDevice) (st : DriverState) (a ptr : Nat)
    (slice : List Nat) : (writeSlice dev st a ptr slice).2.1.grant = st.grant := by
  unfold writeSlice
  split
  · rfl
  · rcases start_cases st a with ⟨hidle, hs⟩ | ⟨b, hb, hs⟩ <;> rw [hs]

theorem done_eq (st : DriverState) (s : ReturnCode) (a : Nat) (d : AppData)
    (hown : st.app = some a) (hrec : grantLookup st.grant a = some d) :
    done st s =
      (match d.callback with
        | some cb =>
          some ({ st with
              app := none
              grant := grantUpdate st.grant a { d with callback := none } },
            [Event.callbackSchedule cb s 0 0])
        | none =>
          some ({ st with
              app := none
              grant := grantUpdate st.grant a { d with callback := none } },
            [])) := by
  unfold done
  rw [hown]
  show (match grantLookup st.grant a with
    | none => none
    | some d =>
      match d.callback with
      | some cb =>
        some ({ st with
            app := none
            grant := grantUpdate st.grant a { d with callback := none } },
          [Event.callbackSchedule cb s 0 0])
      | none =>
        some ({ st with
            app := none
            grant := grantUpdate st.grant a { d with callback := none } },
          [])) = _
  rw [hrec]

theorem done_callback (st : DriverState) (s : ReturnCode) (a cb : Nat) (d : AppData)
    (hown : st.app = some a) (hrec : grantLookup st.grant a = some d)
    (hcb : d.callback = some cb) :
    done st s =
      some ({ st with
          app := none
          grant := grantUpdate st.grant a { d with callback := none } },
        [Event.callbackSchedule cb s 0 0]) := by
  rw [done_eq st s a d hown hrec, hcb]

theorem done_no_callback (st : DriverState) (s : ReturnCode) (a : Nat) (d : AppData)
    (hown : st.app = some a) (hrec : grantLookup st.grant a = some d)
    (hcb : d.callback = none) :
    done st s =
      some ({ st with
          app := none
          grant := grantUpdate st.grant a { d with callback := none } },
        []) := by
  rw [done_eq st s a d hown hrec, hcb]

theorem done_idle (st : DriverState) (s : ReturnCode) (hown : st.app = none) :
    done st s = none := by
  unfold done
  rw [hown]

theorem done_dead (st : DriverState) (s : ReturnCode) (a : Nat)
    (hown : st.app = some a) (hrec : grantLookup st.grant a = none) :
    done st s = none := by
  unfold done
  rw [hown]
  show (match grantLookup st.grant a with
    | none => none
    | some d =>
      match d.callback with
      | some cb =>
        some ({ st with
            app := none
            grant := grantUpdate st.grant a { d with callback := none } },
          [Event.callbackSchedule cb s 0 0])
      | none =>
        some ({ st with
            app := none
            grant := grantUpdate st.grant a { d with callback := none } },
          [])) = none
  rw [hrec]

/-! ### C1 -/

/-- C1: mutual exclusion. `start` is a compare-and-set: it returns `false`
and leaves the marker unchanged when the marker is occupied, and sets the
marker to the caller and returns `true` when it is empty. While an operation
of client `b` is pending, every (otherwise valid) `write` or `erase` call
from any client returns `EBUSY` with no call to the flash device; `done`
always resets the marker to `Idle`; and once the marker is idle the next
valid erase call starts an operation (marker becomes owned by the caller)
and returns the immediate code of the device. -/
theorem c1_mutual_exclusion :
    (∀ st c, st.app = none → start st c = (true, { st with app := some c })) ∧
    (∀ st c b, st.app = some b → start st c = (false, st)) ∧
    (∀ dev st a b ptr, st.app = some b → ptr % PAGE_SIZE = 0 →
      command dev st 3 ptr a = some (ReturnCode.EBUSY, st, [])) ∧
    (∀ dev st a b ptr d sl, st.app = some b →
      grantLookup st.grant a = some d → d.slice = some sl →
      ptr % WORD_SIZE = 0 → sl.length % WORD_SIZE = 0 →
      sl.length / WORD_SIZE ≤ MAX_WRITE_LENGTH →
      ∃ st1, command dev st 2 ptr a = some (ReturnCode.EBUSY, st1, []) ∧
        st1.app = st.app ∧ st1.writeBuffer = st.writeBuffer) ∧
    (∀ st s st1 evs, done st s = some (st1, evs) → st1.app = none) ∧
    (∀ dev st a ptr, st.app = none → ptr % PAGE_SIZE = 0 →
      command dev st 3 ptr a =
        some (dev.eraseCode (ptr / WORD_SIZE), { st with app := some a },
          [Event.flashErase (ptr / WORD_SIZE)])) := by
  refine ⟨start_idle, fun st c b h => start_pending st c b h, ?_, ?_, ?_, ?_⟩
  · intro dev st a b ptr hb hp
    rw [command_erase_eq, erasePage_busy dev st a b ptr hb hp]
  · intro dev st a b ptr d sl hb hrec hsl h1 h2 h3
    refine ⟨{ st with grant := grantUpdate st.grant a { d with slice := none } }, ?_, rfl, rfl⟩
    rw [command_write_eq dev st ptr a d hrec, hsl]
    exact congrArg some (writeSlice_busy dev _ a b ptr sl hb h1 h2 h3)
  · intro st s st1 evs h
    unfold done at h
    split at h
    · exact Option.noConfusion h
    · split at h
      · exact Option.noConfusion h
      · split at h
        all_goals
          simp only [Option.some.injEq, Prod.mk.injEq] at h
          rcases h with ⟨h1, -⟩
          subst h1
          rfl
  · intro dev st a ptr hidle hp
    rw [command_erase_eq, erasePage_go dev st a ptr hidle hp]

/-- Concrete check of C1: with an operation of app 7 pending, an erase call from
app 9 at page 2048 returns `EBUSY` and makes no device call. -/
theorem c1_mutual_exclusion_witness :
    stPending.app = some 7 ∧
    command trivialDev stPending 3 2048 9 = some (ReturnCode.EBUSY, stPending, []) :=
  ⟨rfl, c1_mutual_exclusion.2.2.1 trivialDev stPending 9 7 2048 rfl (by decide)⟩

/-! ### C2 -/

theorem marshalWords_length (n : Nat) (bs : List Nat) : (marshalWords n bs).length = n := by
  induction n generalizing bs with
  | zero => rfl
  | succ n ih => simp [marshalWords, ih]

theorem marshalWords_get (n : Nat) (bs : List Nat) (i : Nat) (h : i < n) :
    (marshalWords n bs).get? i =
      some (fromNeBytes ((bs.drop (WORD_SIZE * i)).take WORD_SIZE)) := by
  induction n generalizing bs i with
  | zero => omega
  | succ n ih =>
    cases i with
    | zero => simp [marshalWords]
    | succ i =>
      have hrec := ih (bs.drop WORD_SIZE) i (by omega)
      simp only [marshalWords, List.get?_cons_succ]
      rw [hrec, List.drop_drop]
      have hm : WORD_SIZE + WORD_SIZE * i = WORD_SIZE * (i + 1) := by ring
      rw [← hm]

/-- C2: write marshalling. With a buffer registered, a word-aligned byte
offset, a buffer length that is a positive multiple of `WORD_SIZE` of at most
`MAX_WRITE_LENGTH` words and no operation pending, a write command issues
exactly one device write at word address `ptr / WORD_SIZE` whose payload is
the slice split into consecutive `WORD_SIZE`-byte groups, each converted to
one machine word in native byte order; the words are stored in the scratch
buffer from index 0, and the call returns the immediate device code. -/
theorem c2_write_marshalling (dev : FlashDevice) (st : DriverState) (a ptr : Nat)
    (d : AppData) (sl : List Nat)
    (hrec : grantLookup st.grant a = some d) (hsl : d.slice = some sl)
    (hidle : st.app = none) (hptr : ptr % WORD_SIZE = 0)
    (hlen : sl.length % WORD_SIZE = 0) (hpos : 0 < sl.length)
    (hmax : sl.length / WORD_SIZE ≤ MAX_WRITE_LENGTH) :
    ∃ st1,
      command dev st 2 ptr a =
        some (dev.writeCode (ptr / WORD_SIZE) (marshal sl), st1,
          [Event.flashWrite (ptr / WORD_SIZE) (marshal sl)]) ∧
      st1.writeBuffer = marshal sl ++ st.writeBuffer.drop (sl.length / WORD_SIZE) ∧
      (marshal sl).length = sl.length / WORD_SIZE ∧
      ∀ i, i < sl.length / WORD_SIZE →
        (marshal sl).get? i =
          some (fromNeBytes ((sl.drop (WORD_SIZE * i)).take WORD_SIZE)) := by
  refine ⟨{ st with
      app := some a
      grant := grantUpdate st.grant a { d with slice := none }
      writeBuffer := marshal sl ++ st.writeBuffer.drop (sl.length / WORD_SIZE) }, ?_, rfl,
    marshalWords_length _ _, fun i hi => marshalWords_get _ _ i hi⟩
  rw [command_write_eq dev st ptr a d hrec, hsl]
  exact congrArg some (writeSlice_go dev _ a ptr sl hidle hptr hlen hmax)

/-- Concrete check of C2: app 7 writes its registered 8-byte slice at byte
offset 4 on an idle driver. -/
theorem c2_write_marshalling_witness :
    stIdle.app = none ∧
    (∃ st1,
      command trivialDev stIdle 2 4 7 =
        some (trivialDev.writeCode (4 / WORD_SIZE) (marshal sampleSlice), st1,
          [Event.flashWrite (4 / WORD_SIZE) (marshal sampleSlice)]) ∧
      st1.writeBuffer = marshal sampleSlice ++ stIdle.writeBuffer.drop (sampleSlice.length / WORD_SIZE) ∧
      (marshal sampleSlice).length = sampleSlice.length / WORD_SIZE ∧
      ∀ i, i < sampleSlice.length / WORD_SIZE →
        (marshal sampleSlice).get? i =
          some (fromNeBytes ((sampleSlice.drop (WORD_SIZE * i)).take WORD_SIZE))) :=
  ⟨rfl, c2_write_marshalling trivialDev stIdle 7 4 sampleData sampleSlice (by decide) rfl rfl
    (by decide) (by decide) (by decide) (by decide)⟩

/-! ### C3 -/

/-- C3: write validation. For a client with a live record, the write command
returns `EINVAL` without a device call exactly when no input buffer is
registered, the byte offset is not word-aligned, the buffer length is not a
multiple of `WORD_SIZE`, or the word count exceeds `MAX_WRITE_LENGTH`; and
whenever the immediate write code of the device is never `EINVAL`, the call
returns `EINVAL` (at all) exactly under the same condition. -/
theorem c3_write_validation (dev : FlashDevice) (st : DriverState) (a ptr : Nat)
    (d : AppData) (hrec : grantLookup st.grant a = some d) :
    ((∃ st1, command dev st 2 ptr a = some (ReturnCode.EINVAL, st1, [])) ↔
      writeInvalidArgs ptr d.slice = true) ∧
    ((∀ w ws, dev.writeCode w ws ≠ ReturnCode.EINVAL) →
      ((∃ st1 evs, command dev st 2 ptr a = some (ReturnCode.EINVAL, st1, evs)) ↔
        writeInvalidArgs ptr d.slice = true)) := by
  have hcmd := command_write_eq dev st ptr a d hrec
  cases hsl : d.slice with
  | none =>
    rw [hsl] at hcmd
    have hc2 : command dev st 2 ptr a = some (ReturnCode.EINVAL, st, []) := hcmd
    rw [hc2]
    constructor
    · simp [writeInvalidArgs]
    · intro _
      simp [writeInvalidArgs]
  | some sl =>
    rw [hsl] at hcmd
    have hc2 : command dev st 2 ptr a =
        some (writeSlice dev { st with grant := grantUpdate st.grant a { d with slice := none } }
          a ptr sl) := hcmd
    by_cases hbad : ptr % WORD_SIZE ≠ 0 ∨ sl.length % WORD_SIZE ≠ 0 ∨
        sl.length / WORD_SIZE > MAX_WRITE_LENGTH
    · rw [writeSlice_invalid dev _ a ptr sl hbad] at hc2
      have hinv : writeInvalidArgs ptr (some sl) = true := by
        rcases hbad with h | h | h <;> simp [writeInvalidArgs, h]
      rw [hc2, hinv]
      constructor
      · simp
      · intro _
        simp
    · push_neg at hbad
      obtain ⟨h1, h2, h3⟩ := hbad
      have hlt : ¬ sl.length / WORD_SIZE > MAX_WRITE_LENGTH := not_lt.mpr h3
      have hinv : writeInvalidArgs ptr (some sl) = false := by
        simp [writeInvalidArgs, h1, h2, hlt]
      cases happ : st.app with
      | some b =>
        rw [writeSlice_busy dev
          { st with grant := grantUpdate st.grant a { d with slice := none } }
          a b ptr sl happ h1 h2 h3] at hc2
        rw [hc2, hinv]
        constructor
        · simp
        · intro _
          simp
      | none =>
        rw [writeSlice_go dev
          { st with grant := grantUpdate st.grant a { d with slice := none } }
          a ptr sl happ h1 h2 h3] at hc2
        rw [hc2, hinv]
        constructor
        · simp
        · intro hdev
          simp [hdev]

/-- Concrete check of C3: with a registered buffer but a misaligned byte
offset 5, the write of app 7 returns `EINVAL` with no device call. -/
theorem c3_write_validation_witness :
    grantLookup stIdle.grant 7 = some sampleData ∧
    ((∃ st1, command trivialDev stIdle 2 5 7 = some (ReturnCode.EINVAL, st1, [])) ↔
      writeInvalidArgs 5 sampleData.slice = true) :=
  ⟨by decide, (c3_write_validation trivialDev stIdle 7 5 sampleData (by decide)).1⟩

/-! ### C4 -/

/-- C4: rejection atomicity. Provided the immediate device codes are never
`EINVAL` or `EBUSY`, every write or erase command that returns `EINVAL` or
`EBUSY` leaves the pending-operation marker and the scratch word buffer
unchanged. -/
theorem c4_rejection_atomicity (dev : FlashDevice) (st : DriverState) (a ptr : Nat)
    (hdevW : ∀ w ws, dev.writeCode w ws ≠ ReturnCode.EINVAL ∧
      dev.writeCode w ws ≠ ReturnCode.EBUSY)
    (hdevE : ∀ w, dev.eraseCode w ≠ ReturnCode.EINVAL ∧
      dev.eraseCode w ≠ ReturnCode.EBUSY) :
    ∀ cmd r st1 evs, cmd = 2 ∨ cmd = 3 →
      command dev st cmd ptr a = some (r, st1, evs) →
      r = ReturnCode.EINVAL ∨ r = ReturnCode.EBUSY →
      st1.app = st.app ∧ st1.writeBuffer = st.writeBuffer := by
  rintro cmd r st1 evs (rfl | rfl) hcmd hr
  · rw [command_write_unfold] at hcmd
    cases hg : grantLookup st.grant a with
    | none =>
      rw [hg] at hcmd
      exact Option.noConfusion hcmd
    | some d =>
      rw [hg] at hcmd
      have hcmd2 : (match d.slice with
          | none => some (ReturnCode.EINVAL, st, [])
          | some sl =>
            some (writeSlice dev
              { st with grant := grantUpdate st.grant a { d with slice := none } } a ptr sl))
          = some (r, st1, evs) := hcmd
      cases hsl : d.slice with
      | none =>
        rw [hsl] at hcmd2
        have hw : (ReturnCode.EINVAL, st, ([] : List Event)) = (r, st1, evs) :=
          Option.some.inj hcmd2
        rw [Prod.mk.injEq, Prod.mk.injEq] at hw
        obtain ⟨-, hst, -⟩ := hw
        subst hst
        exact ⟨rfl, rfl⟩
      | some sl =>
        rw [hsl] at hcmd2
        have hw : writeSlice dev
            { st with grant := grantUpdate st.grant a { d with slice := none } } a ptr sl =
            (r, st1, evs) := Option.some.inj hcmd2
        by_cases hbad : ptr % WORD_SIZE ≠ 0 ∨ sl.length % WORD_SIZE ≠ 0 ∨
            sl.length / WORD_SIZE > MAX_WRITE_LENGTH
        · rw [writeSlice_invalid dev _ a ptr sl hbad] at hw
          rw [Prod.mk.injEq, Prod.mk.injEq] at hw
          obtain ⟨-, hst, -⟩ := hw
          subst hst
          exact ⟨rfl, rfl⟩
        · push_neg at hbad
          obtain ⟨h1, h2, h3⟩ := hbad
          have hsc := start_cases
            { st with grant := grantUpdate st.grant a { d with slice := none } } a
          rcases hsc with ⟨hidle, -⟩ | ⟨b, hb, -⟩
          · rw [writeSlice_go dev _ a ptr sl hidle h1 h2 h3] at hw
            rw [Prod.mk.injEq] at hw
            obtain ⟨hcode, -⟩ := hw
            rcases hr with rfl | rfl
            · exact absurd hcode (hdevW _ _).1
            · exact absurd hcode (hdevW _ _).2
          · rw [writeSlice_busy dev _ a b ptr sl hb h1 h2 h3] at hw
            rw [Prod.mk.injEq, Prod.mk.injEq] at hw
            obtain ⟨-, hst, -⟩ := hw
            subst hst
            exact ⟨rfl, rfl⟩
  · rw [command_erase_eq] at hcmd
    have hw := Option.some.inj hcmd
    by_cases hbad : ptr % PAGE_SIZE ≠ 0
    · rw [erasePage_invalid dev st a ptr hbad] at hw
      rw [Prod.mk.injEq, Prod.mk.injEq] at hw
      obtain ⟨-, hst, -⟩ := hw
      subst hst
      exact ⟨rfl, rfl⟩
    · push_neg at hbad
      rcases start_cases st a with ⟨hidle, -⟩ | ⟨b, hb, -⟩
      · rw [erasePage_go dev st a ptr hidle hbad] at hw
        rw [Prod.mk.injEq] at hw
        obtain ⟨hcode, -⟩ := hw
        rcases hr with rfl | rfl
        · exact absurd hcode (hdevE _).1
        · exact absurd hcode (hdevE _).2
      · rw [erasePage_busy dev st a b ptr hb hbad] at hw
        rw [Prod.mk.injEq, Prod.mk.injEq] at hw
        obtain ⟨-, hst, -⟩ := hw
        subst hst
        exact ⟨rfl, rfl⟩

/-- Concrete check of C4: an erase by app 9 at the misaligned offset 100 is
rejected with `EINVAL` while an operation of app 7 is pending, and the marker and
the scratch buffer are unchanged. -/
theorem c4_rejection_atomicity_witness :
    command trivialDev stPending 3 100 9 = some (ReturnCode.EINVAL, stPending, []) ∧
    (stPending.app = stPending.app ∧ stPending.writeBuffer = stPending.writeBuffer) :=
  ⟨by decide,
    c4_rejection_atomicity trivialDev stPending 9 100
      (fun _ _ => ⟨fun h => ReturnCode.noConfusion h, fun h => ReturnCode.noConfusion h⟩)
      (fun _ => ⟨fun h => ReturnCode.noConfusion h, fun h => ReturnCode.noConfusion h⟩)
      3 ReturnCode.EINVAL stPending [] (Or.inr rfl) (by decide) (Or.inl rfl)⟩

/-! ### C5 -/

/-- C5: erase behaviour. An erase command with a byte offset that is not a
multiple of `PAGE_SIZE` returns `EINVAL` with no state change; with a pending
operation it returns `EBUSY` with no state change; on an idle driver it
issues one device erase at word address `ptr / WORD_SIZE`, marks the caller
as owner and returns the immediate code of the device. -/
theorem c5_erase (dev : FlashDevice) (st : DriverState) (a ptr : Nat) :
    (ptr % PAGE_SIZE ≠ 0 → command dev st 3 ptr a = some (ReturnCode.EINVAL, st, [])) ∧
    (∀ b, ptr % PAGE_SIZE = 0 → st.app = some b →
      command dev st 3 ptr a = some (ReturnCode.EBUSY, st, [])) ∧
    (ptr % PAGE_SIZE = 0 → st.app = none →
      command dev st 3 ptr a =
        some (dev.eraseCode (ptr / WORD_SIZE), { st with app := some a },
          [Event.flashErase (ptr / WORD_SIZE)])) := by
  refine ⟨?_, ?_, ?_⟩
  · intro h
    rw [command_erase_eq, erasePage_invalid dev st a ptr h]
  · intro b h hb
    rw [command_erase_eq, erasePage_busy dev st a b ptr hb h]
  · intro h hidle
    rw [command_erase_eq, erasePage_go dev st a ptr hidle h]

/-- Concrete check of C5: `erase(7, 2048)` on an idle driver is accepted and
issues the device erase at word address 512; `erase(7, 100)` is `EINVAL`. -/
theorem c5_erase_witness :
    command trivialDev stIdle 3 2048 7 =
      some (trivialDev.eraseCode 512, { stIdle with app := some 7 },
        [Event.flashErase 512]) ∧
    command trivialDev stIdle 3 100 7 = some (ReturnCode.EINVAL, stIdle, []) :=
  ⟨(c5_erase trivialDev stIdle 7 2048).2.2 (by decide) rfl,
    (c5_erase trivialDev stIdle 7 100).1 (by decide)⟩

/-! ### C6 -/

/-- C6: completion delivery. `erase_done` and `write_done` both forward to
`done`, which resets the marker to `Idle` and, when the owner has a callback
registered, schedules it with the status and two zero arguments; when no
callback is registered, no callback is invoked and the status is dropped. -/
theorem c6_completion (st : DriverState) (s : ReturnCode) (a : Nat) (d : AppData)
    (hown : st.app = some a) (hrec : grantLookup st.grant a = some d) :
    eraseDone st s = done st s ∧
    writeDone st s = done st s ∧
    (∀ cb, d.callback = some cb →
      done st s =
        some ({ st with
            app := none
            grant := grantUpdate st.grant a { d with callback := none } },
          [Event.callbackSchedule cb s 0 0])) ∧
    (d.callback = none →
      done st s =
        some ({ st with
            app := none
            grant := grantUpdate st.grant a { d with callback := none } },
          [])) :=
  ⟨rfl, rfl, fun cb hcb => done_callback st s a cb d hown hrec hcb,
    fun hcb => done_no_callback st s a d hown hrec hcb⟩

/-- Concrete check of C6: completing the pending operation of app 7 with status
`SUCCESS` schedules callback 3 with `(SUCCESS, 0, 0)` and idles the marker. -/
theorem c6_completion_witness :
    sampleData.callback = some 3 ∧
    done stPending ReturnCode.SUCCESS =
      some ({ stPending with
          app := none
          grant := grantUpdate stPending.grant 7 { sampleData with callback := none } },
        [Event.callbackSchedule 3 ReturnCode.SUCCESS 0 0]) :=
  ⟨rfl, (c6_completion stPending ReturnCode.SUCCESS 7 sampleData rfl (by decide)).2.2.1 3 rfl⟩

/-! ### C7 -/

/-- C7: query metadata. In every driver state and for every caller, command 1
with sub-selectors 0..4 returns the word size, page size, maximum write
count, maximum erase count and maximum write length in bytes; any other
sub-selector returns `EINVAL`; command 0 returns the success sentinel; and
any command selector other than 0..3 returns `ENOSUPPORT`. -/
theorem c7_query (dev : FlashDevice) (st : DriverState) (a : Nat) :
    command dev st 1 0 a = some (ReturnCode.SuccessWithValue 4, st, []) ∧
    command dev st 1 1 a = some (ReturnCode.SuccessWithValue 2048, st, []) ∧
    command dev st 1 2 a = some (ReturnCode.SuccessWithValue 2, st, []) ∧
    command dev st 1 3 a = some (ReturnCode.SuccessWithValue 10000, st, []) ∧
    command dev st 1 4 a = some (ReturnCode.SuccessWithValue 128, st, []) ∧
    (∀ sub, 5 ≤ sub → command dev st 1 sub a = some (ReturnCode.EINVAL, st, [])) ∧
    (∀ arg, command dev st 0 arg a = some (ReturnCode.SUCCESS, st, [])) ∧
    (∀ cmd arg, 4 ≤ cmd → command dev st cmd arg a = some (ReturnCode.ENOSUPPORT, st, [])) := by
  refine ⟨rfl, rfl, rfl, rfl, rfl, ?_, fun _ => rfl, ?_⟩
  · intro sub hsub
    obtain ⟨k, rfl⟩ : ∃ k, sub = k + 5 := ⟨sub - 5, by omega⟩
    rfl
  · intro cmd arg hcmd
    obtain ⟨k, rfl⟩ : ∃ k, cmd = k + 4 := ⟨cmd - 4, by omega⟩
    rfl

/-- Concrete check of C7: sub-selector 9 is `EINVAL`, selector 6 is
`ENOSUPPORT`, in a pending state. -/
theorem c7_query_witness :
    (5 : Nat) ≤ 9 ∧
    command trivialDev stPending 1 9 7 = some (ReturnCode.EINVAL, stPending, []) ∧
    (4 : Nat) ≤ 6 ∧
    command trivialDev stPending 6 0 7 = some (ReturnCode.ENOSUPPORT, stPending, []) :=
  ⟨by decide, (c7_query trivialDev stPending 7).2.2.2.2.2.1 9 (by decide), by decide,
    (c7_query trivialDev stPending 7).2.2.2.2.2.2.2 6 0 (by decide)⟩

/-! ### C8 -/

/-- C8: fatal invariant violations. `done` halts the system exactly when it
runs while the marker is `Idle` or when the grant record of the owner is
gone; when an operation is pending and the record of its owner is live, `done`
completes normally. -/
theorem c8_done_halts (st : DriverState) (s : ReturnCode) :
    (done st s = none ↔
      st.app = none ∨ ∃ a, st.app = some a ∧ grantLookup st.grant a = none) ∧
    (∀ a d, st.app = some a → grantLookup st.grant a = some d →
      ∃ st1 evs, done st s = some (st1, evs)) := by
  constructor
  · constructor
    · intro h
      cases happ : st.app with
      | none => exact Or.inl rfl
      | some a =>
        cases hrec : grantLookup st.grant a with
        | none => exact Or.inr ⟨a, rfl, hrec⟩
        | some d =>
          exfalso
          cases hcb : d.callback with
          | some cb =>
            rw [done_callback st s a cb d happ hrec hcb] at h
            exact Option.noConfusion h
          | none =>
            rw [done_no_callback st s a d happ hrec hcb] at h
            exact Option.noConfusion h
    · intro h
      rcases h with happ | ⟨a, happ, hrec⟩
      · exact done_idle st s happ
      · exact done_dead st s a happ hrec
  · intro a d happ hrec
    cases hcb : d.callback with
    | some cb => exact ⟨_, _, done_callback st s a cb d happ hrec hcb⟩
    | none => exact ⟨_, _, done_no_callback st s a d happ hrec hcb⟩

/-- Concrete check of C8: completion with owner 9 missing from the grant
store halts; completion for the live owner 7 returns normally. -/
theorem c8_done_halts_witness :
    done stGhost ReturnCode.SUCCESS = none ∧
    (∃ st1 evs, done stPending ReturnCode.SUCCESS = some (st1, evs)) :=
  ⟨(c8_done_halts stGhost ReturnCode.SUCCESS).1.mpr (Or.inr ⟨9, rfl, by decide⟩),
    (c8_done_halts stPending ReturnCode.SUCCESS).2 7 sampleData rfl (by decide)⟩

/-! ### C9 -/

/-- C9: unconditional buffer consumption. Every write command for a client
with a live record leaves the input-buffer field of that client `none` — the
slice is taken before any validation — so an immediately repeated write
returns `EINVAL` (for lack of a registered buffer) and changes nothing. -/
theorem c9_write_consumes_buffer (dev : FlashDevice) (st : DriverState) (a ptr : Nat)
    (d : AppData) (hrec : grantLookup st.grant a = some d) :
    ∀ r st1 evs, command dev st 2 ptr a = some (r, st1, evs) →
      ∃ d1, grantLookup st1.grant a = some d1 ∧ d1.slice = none ∧
        ∀ ptr2, command dev st1 2 ptr2 a = some (ReturnCode.EINVAL, st1, []) := by
  intro r st1 evs hcmd
  have hc2 := command_write_eq dev st ptr a d hrec
  cases hsl : d.slice with
  | none =>
    rw [hsl] at hc2
    have hc3 : command dev st 2 ptr a = some (ReturnCode.EINVAL, st, []) := hc2
    rw [hc3] at hcmd
    have hw : (ReturnCode.EINVAL, st, ([] : List Event)) = (r, st1, evs) :=
      Option.some.inj hcmd
    rw [Prod.mk.injEq, Prod.mk.injEq] at hw
    obtain ⟨-, hst, -⟩ := hw
    subst hst
    refine ⟨d, hrec, hsl, fun ptr2 => ?_⟩
    have hc4 := command_write_eq dev st ptr2 a d hrec
    rw [hsl] at hc4
    exact hc4
  | some sl =>
    rw [hsl] at hc2
    have hc3 : command dev st 2 ptr a =
        some (writeSlice dev
          { st with grant := grantUpdate st.grant a { d with slice := none } } a ptr sl) := hc2
    rw [hc3] at hcmd
    have hw : writeSlice dev
        { st with grant := grantUpdate st.grant a { d with slice := none } } a ptr sl =
        (r, st1, evs) := Option.some.inj hcmd
    have hgr : st1.grant = grantUpdate st.grant a { d with slice := none } :=
      ((congrArg (fun p => p.2.1.grant) hw).symm.trans
        (writeSlice_grant dev _ a ptr sl))
    have hrec1 : grantLookup st1.grant a = some { d with slice := none } := by
      rw [hgr]
      exact grantLookup_update_self st.grant a d { d with slice := none } hrec
    refine ⟨{ d with slice := none }, hrec1, rfl, fun ptr2 => ?_⟩
    exact command_write_eq dev st1 ptr2 a { d with slice := none } hrec1

/-- Concrete check of C9: after the accepted write of app 7, its slice field is
`none` and a repeated write returns `EINVAL`. -/
theorem c9_write_consumes_buffer_witness :
    command trivialDev stIdle 2 4 7 =
      some (ReturnCode.SUCCESS, stAfterWrite, [Event.flashWrite 1 (marshal sampleSlice)]) ∧
    (∃ d1, grantLookup stAfterWrite.grant 7 = some d1 ∧ d1.slice = none ∧
      ∀ ptr2, command trivialDev stAfterWrite 2 ptr2 7 =
        some (ReturnCode.EINVAL, stAfterWrite, [])) :=
  ⟨by decide,
    c9_write_consumes_buffer trivialDev stIdle 7 4 sampleData (by decide)
      ReturnCode.SUCCESS stAfterWrite [Event.flashWrite 1 (marshal sampleSlice)] (by decide)⟩

/-! ### C10 -/

/-- C10: callbacks are one-shot. After `done` delivers a completion, the
callback field of the owner is `none`, so a later operation by the same client
completes without any callback being scheduled unless the client subscribes
again. -/
theorem c10_callback_one_shot (st : DriverState) (s : ReturnCode) (a : Nat) (d : AppData)
    (hown : st.app = some a) (hrec : grantLookup st.grant a = some d) :
    ∃ st1 evs, done st s = some (st1, evs) ∧
      grantLookup st1.grant a = some { d with callback := none } ∧
      ∀ s2 st2 evs2, done { st1 with app := some a } s2 = some (st2, evs2) → evs2 = [] := by
  have hupd := grantLookup_update_self st.grant a d { d with callback := none } hrec
  have hafter : ∀ s2 st2 evs2,
      done { (⟨none, grantUpdate st.grant a { d with callback := none },
          st.writeBuffer⟩ : DriverState) with app := some a } s2 = some (st2, evs2) →
      evs2 = [] := by
    intro s2 st2 evs2 h
    rw [done_no_callback _ s2 a { d with callback := none } rfl hupd rfl] at h
    have h2 := Option.some.inj h
    exact (congrArg Prod.snd h2).symm
  cases hcb : d.callback with
  | some cb =>
    refine ⟨_, _, done_callback st s a cb d hown hrec hcb, hupd, ?_⟩
    exact hafter
  | none =>
    refine ⟨_, _, done_no_callback st s a d hown hrec hcb, hupd, ?_⟩
    exact hafter

/-- Concrete check of C10: after the completion of app 7 is delivered, its
callback field is cleared, and a completion of a fresh operation by app 7
schedules no callback. -/
theorem c10_callback_one_shot_witness :
    stPending.app = some 7 ∧
    (∃ st1 evs, done stPending ReturnCode.SUCCESS = some (st1, evs) ∧
      grantLookup st1.grant 7 = some { sampleData with callback := none } ∧
      ∀ s2 st2 evs2, done { st1 with app := some 7 } s2 = some (st2, evs2) → evs2 = []) :=
  ⟨rfl, c10_callback_one_shot stPending ReturnCode.SUCCESS 7 sampleData rfl (by decide)⟩

end Opensk
